import Mathlib

/-!
Verification development for the `period` arithmetic package.

The package performs ISO-8601-style period arithmetic on a compact
fixed-point representation (`Period`, six `int16` whole fields plus a
hundredths `fraction` attached to one `designator`), staging computation
in a widened `period64` value.  The Go source files embedded here are
`period/arithmetic.go` (Add / simpleAdd / nonTrivialAdd / AddTo /
Scale / RationalScale / rationalScale64) and the `period64` staging file
(p64Of / toPeriod64 / toPeriod / normalise64 / rippleUp / the
fraction-reduction passes).

Machine integers are embedded as unbounded `Int` together with explicit
wrap-around functions (`w8`, `w16`, `w64`) applied wherever the Go code
performs fixed-width arithmetic, and Go's truncated division/remainder
is embedded as `Int.tdiv` / `Int.tmod` (with the wrap applied to the
quotient, which matters only at `minInt64 / -1`, exactly as in Go).

One part of the source is not embeddable: the day→month
overflow-avoidance collapse inside `rippleUp` (guarded by
`days > MaxInt16 || days < 0`) computes with `float64`; functions whose
run would enter that branch return `none` / a `floatBranch` marker, and
every theorem below carries hypotheses keeping the computation out of
that branch, except where a claim is settled on concrete inputs that
provably avoid it.

Helpers of the package that are referenced by the embedded files but
whose own code is not among the source files (`Sign`, `IsNegative`,
`centiYM`, `centiDays`, `centiHMS`, `hmsDuration`, `Duration`,
`absNeg`, `Negate`, `condNegate`, `NewOf`, `Normalise`, `Simplify`,
the constants, and `String` rendering) are modelled from the spec; each
such definition carries a doc comment saying so.
-/

/-- Wrap-around of an unbounded integer into the signed 8-bit range,
embedding Go's `int8` conversion. -/
def w8 (x : Int) : Int := (x + 2^7) % 2^8 - 2^7

/-- Wrap-around into the signed 16-bit range, embedding Go's `int16`
conversion and `int16` arithmetic overflow. -/
def w16 (x : Int) : Int := (x + 2^15) % 2^16 - 2^15

/-- Wrap-around into the signed 64-bit range, embedding Go's `int64`
arithmetic overflow. -/
def w64 (x : Int) : Int := (x + 2^63) % 2^64 - 2^63

/-- Go `int64` addition. -/
def gadd (a b : Int) : Int := w64 (a + b)

/-- Go `int64` subtraction. -/
def gsub (a b : Int) : Int := w64 (a - b)

/-- Go `int64` multiplication. -/
def gmul (a b : Int) : Int := w64 (a * b)

/-- Go `int64` quotient: truncated division, wrapping at
`minInt64 / -1`. -/
def gdiv (a b : Int) : Int := w64 (Int.tdiv a b)

/-- Go `int64` remainder: truncated remainder (always in range for
in-range operands). -/
def gmod (a b : Int) : Int := Int.tmod a b

/-- Go `int16` addition. -/
def gadd16 (a b : Int) : Int := w16 (a + b)

/-- Designator of the field carrying the fractional hundredths part;
`NoFraction` when no field does. -/
inductive Designator where
  | NoFraction
  | Year
  | Month
  | Day
  | Hour
  | Minute
  | Second
deriving DecidableEq, Repr

/-- Public period value: six signed `int16` whole fields, an `int8`
hundredths fraction and the designator it attaches to.  Modelled from
the spec (the struct's own file is not among the sources); fields are
`Int` with the `int16`/`int8` ranges imposed by `Period.valid` and by
the wrap functions at every construction site in the embedded code. -/
structure Period where
  years : Int
  months : Int
  days : Int
  hours : Int
  minutes : Int
  seconds : Int
  fraction : Int
  fpart : Designator
deriving DecidableEq, Repr

/-- Zero value of `Period` (Go's `Period{}`). -/
def zeroPeriod : Period :=
  ⟨0, 0, 0, 0, 0, 0, 0, .NoFraction⟩

/-- Working 64-bit staging value, from the source (`period64`). -/
structure Period64 where
  years : Int
  months : Int
  days : Int
  hours : Int
  minutes : Int
  seconds : Int
  fraction : Int
  fpart : Designator
  neg : Bool
  input : String
deriving DecidableEq, Repr

/-- Modelled from the spec: `IsNegative` reports whether a Period is
negative; under the sign invariant a Period is negative exactly when
some field or the fraction is below zero. -/
def Period.IsNegative (p : Period) : Bool :=
  p.years < 0 || p.months < 0 || p.days < 0 || p.hours < 0 ||
    p.minutes < 0 || p.seconds < 0 || p.fraction < 0

/-- Modelled from the spec: a Period is zero when every field and the
fraction are zero. -/
def Period.IsZero (p : Period) : Bool :=
  p.years = 0 && p.months = 0 && p.days = 0 && p.hours = 0 &&
    p.minutes = 0 && p.seconds = 0 && p.fraction = 0

/-- Modelled from the spec: `Sign` is 0 for the zero period, -1 for a
negative period and +1 otherwise. -/
def Period.Sign (p : Period) : Int :=
  if p.IsZero then 0 else if p.IsNegative then -1 else 1

/-- Modelled from the spec: centi-unit total of the year-month group,
`(years*12 + months)*100` plus the fraction when it attaches to Year
(worth 12 centi-months per hundredth of a year) or to Month. -/
def Period.centiYM (p : Period) : Int :=
  (p.years * 12 + p.months) * 100 +
    (match p.fpart with
      | .Year => p.fraction * 12
      | .Month => p.fraction
      | _ => 0)

/-- Modelled from the spec: centi-unit total of the day group,
`days*100` plus the fraction when it attaches to Day. -/
def Period.centiDays (p : Period) : Int :=
  p.days * 100 + (if p.fpart = .Day then p.fraction else 0)

/-- Modelled from the spec: centi-unit (centi-second) total of the
hour-minute-second group, `(hours*3600 + minutes*60 + seconds)*100`
plus the fraction scaled to centi-seconds when it attaches to Hour
(3600 per hundredth), Minute (60 per hundredth) or Second. -/
def Period.centiHMS (p : Period) : Int :=
  (p.hours * 3600 + p.minutes * 60 + p.seconds) * 100 +
    (match p.fpart with
      | .Hour => p.fraction * 3600
      | .Minute => p.fraction * 60
      | .Second => p.fraction
      | _ => 0)

/-- Modelled from the spec: the hour/minute/second magnitude of a
period as an exact elapsed-time offset in nanoseconds (one centi-second
is 10^7 ns). -/
def Period.hmsDuration (p : Period) : Int :=
  p.centiHMS * 10000000

/-- Average days per month scaled by 10^6, from the source constants
(365.2425 / 12 = 30.436875 days). -/
def daysPerMonthE6 : Int := 30436875

/-- One million, from the source constants. -/
def oneE6 : Int := 1000000

/-- Modelled from the spec: convert a whole period to an approximate
elapsed-time duration in nanoseconds (every year 365.2425 days, every
day 24 hours); the flag is true when no year/month/day component was
involved. -/
def Period.Duration (p : Period) : Int × Bool :=
  let ymd := gmul (gmul (gadd (gmul p.centiYM daysPerMonthE6) (gmul p.centiDays oneE6)) 864) 1000
  let hms := gmul p.centiHMS 10000000
  (gadd ymd hms, ymd = 0)

/-- Modelled from the spec: negate every field of a period, including
the fraction (with Go's fixed-width negation). -/
def Period.Negate (p : Period) : Period :=
  ⟨w16 (-p.years), w16 (-p.months), w16 (-p.days), w16 (-p.hours),
    w16 (-p.minutes), w16 (-p.seconds), w8 (-p.fraction), p.fpart⟩

/-- Modelled from the spec: take the absolute magnitude of a period and
report whether it was negative. -/
def Period.absNeg (p : Period) : Period × Bool :=
  if p.IsNegative then (p.Negate, true) else (p, false)

/-- Modelled from the spec: negate the period when the flag is set. -/
def Period.condNegate (p : Period) (neg : Bool) : Period :=
  if neg then p.Negate else p

/-- Modelled from the spec: textual rendering of a staging value, used
only when the original input text is unknown; formatting proper is out
of scope, so an ISO-8601-style skeleton is produced. -/
def p64String (p : Period64) : String :=
  (if p.neg then "-P" else "P") ++ toString p.years ++ "Y" ++
    toString p.months ++ "M" ++ toString p.days ++ "D" ++
    "T" ++ toString p.hours ++ "H" ++ toString p.minutes ++ "M" ++
    toString p.seconds ++ "S"

/-- Overflow error produced by narrowing: the original input text (or a
rendering of the value when no input is known) and the names of every
offending field, in field order. -/
structure OverflowError where
  input : String
  fields : List String
deriving DecidableEq, Repr

instance {e a : Type} [DecidableEq e] [DecidableEq a] : DecidableEq (Except e a) :=
  fun x y =>
    match x, y with
    | .ok u, .ok v =>
        if h : u = v then .isTrue (by rw [h])
        else .isFalse (by intro hh; injection hh; contradiction)
    | .error u, .error v =>
        if h : u = v then .isTrue (by rw [h])
        else .isFalse (by intro hh; injection hh; contradiction)
    | .ok _, .error _ => .isFalse (by intro hh; cases hh)
    | .error _, .ok _ => .isFalse (by intro hh; cases hh)

/-- Narrowing of a staging value back to the public representation,
from the source (`toPeriod`): collect the name of every field above the
`int16` maximum (and `"fraction"` above 99); on any hit fail with an
overflow error carrying the input text, otherwise construct the public
value, negating every field when the sign flag is set. -/
def Period64.toPeriod (p : Period64) : Except OverflowError Period :=
  let f : List String :=
    (if p.years > 32767 then ["years"] else []) ++
    (if p.months > 32767 then ["months"] else []) ++
    (if p.days > 32767 then ["days"] else []) ++
    (if p.hours > 32767 then ["hours"] else []) ++
    (if p.minutes > 32767 then ["minutes"] else []) ++
    (if p.seconds > 32767 then ["seconds"] else []) ++
    (if p.fraction > 99 then ["fraction"] else [])
  if f ≠ [] then
    .error ⟨if p.input = "" then p64String p else p.input, f⟩
  else if p.neg then
    .ok ⟨w16 (-p.years), w16 (-p.months), w16 (-p.days), w16 (-p.hours),
      w16 (-p.minutes), w16 (-p.seconds), w8 (-p.fraction), p.fpart⟩
  else
    .ok ⟨w16 p.years, w16 p.months, w16 p.days, w16 p.hours,
      w16 p.minutes, w16 p.seconds, w8 p.fraction, p.fpart⟩

/-- Widening of a public period to the staging value, from the source
(`toPeriod64`): a negative period is negated field-by-field into
positive magnitudes with the sign flag set; Go negates each field in
its own width before widening (`int64(-period.years)`), so the
negations wrap at -32768 (-128 for the fraction). -/
def Period.toPeriod64 (p : Period) (input : String) : Period64 :=
  if p.IsNegative then
    ⟨w16 (-p.years), w16 (-p.months), w16 (-p.days), w16 (-p.hours),
      w16 (-p.minutes), w16 (-p.seconds), w8 (-p.fraction), p.fpart, true, input⟩
  else
    ⟨p.years, p.months, p.days, p.hours, p.minutes, p.seconds,
      p.fraction, p.fpart, false, input⟩

/-- Year-fraction reduction pass, from the source: when the fraction
attaches to Year, convert it to centi-months (12 per hundredth); if
that divides exactly by 100, add the whole months and clear the
fraction, otherwise leave the value untouched. -/
def Period64.reduceYearsFraction (p : Period64) : Period64 :=
  if p.fpart = .Year then
    let centiMonths := gmul 12 p.fraction
    let monthFraction := gmod centiMonths 100
    if monthFraction = 0 then
      { p with months := gadd p.months (gdiv centiMonths 100),
               fraction := 0, fpart := .NoFraction }
    else p
  else p

/-- Day-fraction reduction pass, from the source: only in imprecise
mode, convert a Day fraction to centi-hours (24 per hundredth) and
commit exactly when it divides by 100. -/
def Period64.reduceDaysFraction (p : Period64) (precise : Bool) : Period64 :=
  if !precise && p.fpart = .Day then
    let centiHours := gmul 24 p.fraction
    let hourFraction := gmod centiHours 100
    if hourFraction = 0 then
      { p with hours := gadd p.hours (gdiv centiHours 100),
               fraction := 0, fpart := .NoFraction }
    else p
  else p

/-- Month-fraction reduction pass, from the source: only in imprecise
mode, convert a Month fraction to centi-days via the average month
length and commit exactly when it divides by 100. -/
def Period64.reduceMonthsFraction (p : Period64) (precise : Bool) : Period64 :=
  if !precise && p.fpart = .Month then
    let centiDays := gdiv (gmul daysPerMonthE6 p.fraction) oneE6
    let dayFraction := gmod centiDays 100
    if dayFraction = 0 then
      { p with days := gadd p.days (gdiv centiDays 100),
               fraction := 0, fpart := .NoFraction }
    else p
  else p

/-- Hour-fraction reduction pass, from the source: convert an Hour
fraction to centi-minutes (60 per hundredth) and commit exactly when it
divides by 100. -/
def Period64.reduceHoursFraction (p : Period64) : Period64 :=
  if p.fpart = .Hour then
    let centiMinutes := gmul 60 p.fraction
    let minuteFraction := gmod centiMinutes 100
    if minuteFraction = 0 then
      { p with minutes := gadd p.minutes (gdiv centiMinutes 100),
               fraction := 0, fpart := .NoFraction }
    else p
  else p

/-- Minute-fraction reduction pass, from the source: convert a Minute
fraction to centi-seconds (60 per hundredth) and commit exactly when it
divides by 100. -/
def Period64.reduceMinutesFraction (p : Period64) : Period64 :=
  if p.fpart = .Minute then
    let centiSeconds := gmul 60 p.fraction
    let secondFraction := gmod centiSeconds 100
    if secondFraction = 0 then
      { p with seconds := gadd p.seconds (gdiv centiSeconds 100),
               fraction := 0, fpart := .NoFraction }
    else p
  else p

/-- Carry-propagation pass, from the source (`rippleUp`).  Collapse the
hour-minute-second total to seconds and re-derive the three fields
(borrowing days when negative); fold hours into days when imprecise or
when hours would overflow `int16`; fold months into years.  The
day→month overflow-avoidance collapse of the source runs on `float64`
and is outside this embedding: when its guard (`days > 32767` or
`days < 0`) fires the result is `none`. -/
def Period64.rippleUp (p : Period64) (precise : Bool) : Option Period64 :=
  let hms := gadd (gadd (gmul p.hours 3600) (gmul p.minutes 60)) p.seconds
  let dh :=
    if hms < 0 then
      let dd := gsub (gdiv hms 86400) 1
      (gadd p.days dd, gsub hms (gmul dd 86400))
    else (p.days, hms)
  let days0 := dh.1
  let hms0 := dh.2
  let hours0 := gdiv hms0 3600
  let minutes0 := gsub (gdiv hms0 60) (gmul hours0 60)
  let seconds0 := gmod hms0 60
  let dh2 :=
    if !precise || hours0 > 32767 then
      let h := gmod hours0 24
      (gadd days0 (gdiv hours0 24), if h < 0 then w64 (-h) else h)
    else (days0, hours0)
  let days1 := dh2.1
  let hours1 := dh2.2
  if days1 > 32767 || days1 < 0 then
    none
  else
    let ym :=
      if p.months ≠ 0 then (gadd p.years (gdiv p.months 12), gmod p.months 12)
      else (p.years, p.months)
    some { p with years := ym.1, months := ym.2, days := days1,
                  hours := hours1, minutes := minutes0, seconds := seconds0 }

/-- Normalisation of a staging value, from the source (`normalise64`):
ripple-up followed by the Year, Day, Hour and Minute fraction-reduction
passes. -/
def Period64.normalise64 (p : Period64) (precise : Bool) : Option Period64 :=
  (p.rippleUp precise).map fun q =>
    (((q.reduceYearsFraction).reduceDaysFraction precise).reduceHoursFraction).reduceMinutesFraction

/-- Combination of three signed centi-unit group totals into a
normalised staging value, from the source (`p64Of`): split each total
into a whole count and a remainder; each non-zero remainder becomes the
attached fraction (later groups overwrite earlier ones), then
normalise in precise mode. -/
def p64Of (cym cd chms : Int) (neg : Bool) : Option Period64 :=
  let base : Period64 :=
    ⟨0, gdiv cym 100, gdiv cd 100, 0, 0, gdiv chms 100, 0, .NoFraction, neg, ""⟩
  let ymf := gmod cym 100
  let p1 := if ymf ≠ 0 then { base with fraction := w8 ymf, fpart := .Month } else base
  let df := gmod cd 100
  let p2 := if df ≠ 0 then { p1 with fraction := w8 df, fpart := .Day } else p1
  let sf := gmod chms 100
  let p3 := if sf ≠ 0 then { p2 with fraction := w8 sf, fpart := .Second } else p2
  p3.normalise64 true

/-- Carry of one whole unit into the field matching the shared
designator, embedding the `switch fpart` block of `simpleAdd` (Go
`int16` addition). -/
def Period.bumpField (p : Period) (one : Int) (fp : Designator) : Period :=
  match fp with
  | .Year => { p with years := gadd16 p.years one }
  | .Month => { p with months := gadd16 p.months one }
  | .Day => { p with days := gadd16 p.days one }
  | .Hour => { p with hours := gadd16 p.hours one }
  | .Minute => { p with minutes := gadd16 p.minutes one }
  | .Second => { p with seconds := gadd16 p.seconds one }
  | .NoFraction => p

/-- Fast-path addition, from the source (`simpleAdd`): field-wise
`int16` sums; the fraction is adopted from whichever side has one, or
both fractions are added with a single whole-unit carry in the sign's
direction when the magnitude exceeds 99; a zero final fraction clears
the designator. -/
def Period.simpleAdd (p that : Period) : Period :=
  let st :=
    if p.fpart = .NoFraction then
      (that.fraction, that.fpart, p)
    else if that.fpart = .NoFraction then
      (p.fraction, p.fpart, p)
    else
      let fraction := p.fraction + that.fraction
      if fraction > 99 ∨ fraction < -99 then
        (Int.tmod fraction 100, p.fpart, p.bumpField (w16 p.Sign) p.fpart)
      else
        (fraction, p.fpart, p)
  let fraction := st.1
  let fpart := if fraction = 0 then Designator.NoFraction else st.2.1
  let p' := st.2.2
  ⟨gadd16 p'.years that.years, gadd16 p'.months that.months,
    gadd16 p'.days that.days, gadd16 p'.hours that.hours,
    gadd16 p'.minutes that.minutes, gadd16 p'.seconds that.seconds,
    w8 fraction, fpart⟩

/-- Group-total combination step of the general addition path: sum the
three centi-unit groups of both operands; keep them with a positive
sign flag when all are non-negative, otherwise negate all three and set
the flag, then feed them to `p64Of` (the staging part of the source's
`nonTrivialAdd`, before narrowing). -/
def Period.nonTrivialCore (p that : Period) : Option Period64 :=
  let cym := gadd p.centiYM that.centiYM
  let cd := gadd p.centiDays that.centiDays
  let chms := gadd p.centiHMS that.centiHMS
  if cym ≥ 0 ∧ cd ≥ 0 ∧ chms ≥ 0 then
    p64Of cym cd chms false
  else
    p64Of (w64 (-cym)) (w64 (-cd)) (w64 (-chms)) true

/-- General addition path, from the source (`nonTrivialAdd`): combine
the group totals, narrow, and discard any narrowing error (Go's
`p, _ := ...toPeriod(); return p` returns the zero `Period{}` then). -/
def Period.nonTrivialAdd (p that : Period) : Option Period :=
  (p.nonTrivialCore that).map fun p64 =>
    match p64.toPeriod with
    | .ok r => r
    | .error _ => zeroPeriod

/-- Addition, from the source (`Add`): the fast path applies when the
fractions attach to the same designator or one is absent and both
operands have the same sign; otherwise the general centi-unit path
runs. -/
def Period.Add (p that : Period) : Option Period :=
  if (p.fpart = that.fpart ∨ p.fpart = .NoFraction ∨ that.fpart = .NoFraction)
      ∧ p.Sign = that.Sign then
    some (p.simpleAdd that)
  else
    p.nonTrivialAdd that

/-- Application of a period to a timestamp, from the source (`AddTo`).
The timestamp type and its two capabilities — calendar-exact addition
of whole years/months/days and exact addition of an elapsed-time
offset — are external per the spec, so they are parameters.  When no
date-scale field carries the fraction, the exact branch runs and is
reported precise; otherwise the approximate duration is added. -/
def Period.AddTo {T : Type} (addDate : T → Int → Int → Int → T)
    (addDur : T → Int → T) (p : Period) (t : T) : T × Bool :=
  let wholeYears := p.fpart ≠ .Year
  let wholeMonths := p.fpart ≠ .Month
  let wholeDays := p.fpart ≠ .Day
  if wholeYears ∧ wholeMonths ∧ wholeDays then
    (addDur (addDate t p.years p.months p.days) p.hmsDuration, true)
  else
    let dp := p.Duration
    (addDur t dp.1, dp.2)

/-- Modelled from the spec: `NewOf` reconstructs a period from an
elapsed-time duration (nanoseconds); reconstruction from a pure
hour/minute/second span is exact.  The value splits the duration into
hours, minutes, seconds and a centi-second fraction; the flag reports
whether the split lost nothing and the hour count fits the public
width. -/
def NewOf (d : Int) : Period × Bool :=
  let cs := Int.tdiv d 10000000
  let seconds := Int.tdiv cs 100
  let frac := Int.tmod cs 100
  let hours := Int.tdiv seconds 3600
  let minutes := Int.tdiv (Int.tmod seconds 3600) 60
  let secs := Int.tmod seconds 60
  let p : Period :=
    ⟨0, 0, 0, w16 hours, w16 minutes, w16 secs, w8 frac,
      if frac = 0 then .NoFraction else .Second⟩
  (p, Int.tmod d 10000000 = 0 && hours ≤ 32767 && -32768 ≤ hours)

/-- Modelled from the spec: public normalisation widens, runs
`normalise64` in the given precision mode and narrows, keeping the
original value when narrowing fails; `none` when the ripple-up would
enter the unembeddable float branch. -/
def Period.Normalise (p : Period) (precise : Bool) : Option Period :=
  ((p.toPeriod64 "").normalise64 precise).map fun q =>
    match q.toPeriod with
    | .ok r => r
    | .error _ => p

/-- Modelled from the spec: fraction simplification beyond
normalisation is unspecified by the spec except that it preserves the
period's value; it is modelled as the identity. -/
def Period.Simplify (p : Period) (_precise : Bool) : Period := p

/-- Outcome of `rationalScale64`: a division-by-zero abort (Go panic),
a run that would enter the unembeddable float branch, a surfaced
overflow error, or a period. -/
inductive RSOut where
  | divByZero
  | floatBranch
  | err (e : OverflowError)
  | ok (p : Period)
deriving DecidableEq, Repr

/-- Rational scaling, from the source (`rationalScale64`): take the
absolute magnitude and sign, multiply the three centi-unit group totals
by `m`; when all three are exactly divisible by `d`, divide and feed
`p64Of` (with the source's `d > m` day-remainder guard); otherwise
scale an approximate duration and reconstruct.  A zero divisor aborts
(the first Go `%` operation panics); the abort is modelled up front. -/
def Period.rationalScale64 (p : Period) (m d : Int) : RSOut :=
  let an := p.absNeg
  let ap := an.1
  let neg := an.2
  let cym := ap.centiYM
  let cd := ap.centiDays
  let chms := ap.centiHMS
  let mcym := gmul cym m
  let mcd := gmul cd m
  let mchms := gmul chms m
  if d = 0 then .divByZero
  else
    let cymr := gmod mcym d
    let cdr := gmod mcd d
    let chmsr := gmod mchms d
    if cymr = 0 ∧ cdr = 0 ∧ chmsr = 0 then
      let scd := gdiv mcd d
      let mchms' := if d > m ∧ w64 (scd * d) ≠ mcd then gmul mcd 24 else mchms
      match p64Of (gdiv mcym d) scd (gdiv mchms' d) neg with
      | none => .floatBranch
      | some p64 =>
          match p64.toPeriod with
          | .ok r => .ok r
          | .error e => .err e
    else
      let ymdDuration := gmul (gmul (gadd (gmul cym daysPerMonthE6) (gmul cd oneE6)) 864) 1000
      let hmsDuration := gmul (gmul chms 10) 1000000
      let duration := gadd ymdDuration hmsDuration
      let pr1 := ymdDuration = 0
      let mul := gdiv (gmul duration m) d
      let np := NewOf (gadd mul 5000000)
      let precise := pr1 && np.2
      match ((np.1.condNegate neg).Normalise precise) with
      | none => .floatBranch
      | some r => .ok (r.Simplify precise)

/-- Public rational scaling, from the source (`RationalScale`): a thin
wrapper widening the `int` arguments to `int64`. -/
def Period.RationalScale (p : Period) (m d : Int) : RSOut :=
  p.rationalScale64 m d

/-- Validity of a public period, from the spec's data-model section:
fields within the `int16` range, fraction within -99..99, the fraction
present exactly when a designator is, and the sign invariant (all
non-zero fields and the fraction non-negative, or all non-positive). -/
def Period.valid (p : Period) : Prop :=
  |p.years| ≤ 32767 ∧ |p.months| ≤ 32767 ∧ |p.days| ≤ 32767 ∧
  |p.hours| ≤ 32767 ∧ |p.minutes| ≤ 32767 ∧ |p.seconds| ≤ 32767 ∧
  |p.fraction| ≤ 99 ∧ (p.fraction = 0 ↔ p.fpart = .NoFraction) ∧
  ((0 ≤ p.years ∧ 0 ≤ p.months ∧ 0 ≤ p.days ∧ 0 ≤ p.hours ∧
      0 ≤ p.minutes ∧ 0 ≤ p.seconds ∧ 0 ≤ p.fraction) ∨
    (p.years ≤ 0 ∧ p.months ≤ 0 ∧ p.days ≤ 0 ∧ p.hours ≤ 0 ∧
      p.minutes ≤ 0 ∧ p.seconds ≤ 0 ∧ p.fraction ≤ 0))

/-- Sign invariant alone, from the spec: all non-zero whole fields and
the fraction share a sign. -/
def Period.signInvariant (p : Period) : Prop :=
  (0 ≤ p.years ∧ 0 ≤ p.months ∧ 0 ≤ p.days ∧ 0 ≤ p.hours ∧
      0 ≤ p.minutes ∧ 0 ≤ p.seconds ∧ 0 ≤ p.fraction) ∨
    (p.years ≤ 0 ∧ p.months ≤ 0 ∧ p.days ≤ 0 ∧ p.hours ≤ 0 ∧
      p.minutes ≤ 0 ∧ p.seconds ≤ 0 ∧ p.fraction ≤ 0)

instance (p : Period) : Decidable p.valid := by
  unfold Period.valid; infer_instance

instance (p : Period) : Decidable p.signInvariant := by
  unfold Period.signInvariant; infer_instance

lemma w8_small {x : Int} (h1 : -128 ≤ x) (h2 : x ≤ 127) : w8 x = x := by
  unfold w8; omega

lemma w16_small {x : Int} (h1 : -32768 ≤ x) (h2 : x ≤ 32767) : w16 x = x := by
  unfold w16; omega

lemma w64_small {x : Int} (h1 : -2^63 ≤ x) (h2 : x < 2^63) : w64 x = x := by
  unfold w64; omega

lemma w64_range (x : Int) : -2^63 ≤ w64 x ∧ w64 x < 2^63 := by
  unfold w64; omega

lemma gadd_eq {a b : Int} (h1 : -2^63 ≤ a + b) (h2 : a + b < 2^63) :
    gadd a b = a + b := by
  unfold gadd; exact w64_small h1 h2

lemma gmul_eq {a b : Int} (h1 : -2^63 ≤ a * b) (h2 : a * b < 2^63) :
    gmul a b = a * b := by
  unfold gmul; exact w64_small h1 h2

lemma gadd16_eq {a b : Int} (h1 : -32768 ≤ a + b) (h2 : a + b ≤ 32767) :
    gadd16 a b = a + b := by
  unfold gadd16; exact w16_small h1 h2

lemma gadd16_comm (a b : Int) : gadd16 a b = gadd16 b a := by
  unfold gadd16; rw [Int.add_comm]

lemma gadd16_rot (x y o : Int) : gadd16 (gadd16 x o) y = gadd16 (gadd16 y o) x := by
  unfold gadd16 w16; omega

lemma gadd16_rot' (x y o : Int) : gadd16 y (gadd16 x o) = gadd16 x (gadd16 y o) := by
  unfold gadd16 w16; omega

lemma gadd_comm (a b : Int) : gadd a b = gadd b a := by
  unfold gadd; rw [Int.add_comm]

lemma gdiv_eq {a b : Int} (h0 : 0 ≤ a) (h1 : a < 2^63) (hb : 0 < b) :
    gdiv a b = a / b := by
  unfold gdiv
  rw [Int.tdiv_eq_ediv h0 hb.le]
  have h2 : 0 ≤ a / b := Int.ediv_nonneg h0 hb.le
  have h3 : a / b ≤ a := Int.ediv_le_self _ h0
  exact w64_small (by omega) (by omega)

lemma gmod_eq {a b : Int} (h0 : 0 ≤ a) (hb : 0 < b) : gmod a b = a % b :=
  Int.tmod_eq_emod h0 hb.le

lemma ite_list_eq_nil {c : Prop} [Decidable c] {s : String} :
    (if c then [s] else []) = [] ↔ ¬ c := by
  split <;> simp [*]

/-- Overflow condition of the narrowing checks, exactly the seven
one-sided comparisons of `toPeriod`. -/
def Period64.over (q : Period64) : Prop :=
  32767 < q.years ∨ 32767 < q.months ∨ 32767 < q.days ∨ 32767 < q.hours ∨
    32767 < q.minutes ∨ 32767 < q.seconds ∨ 99 < q.fraction

instance (q : Period64) : Decidable q.over := by
  unfold Period64.over; infer_instance

lemma toPeriod_fields_nil_iff (q : Period64) :
    ((if q.years > 32767 then ["years"] else []) ++
     (if q.months > 32767 then ["months"] else []) ++
     (if q.days > 32767 then ["days"] else []) ++
     (if q.hours > 32767 then ["hours"] else []) ++
     (if q.minutes > 32767 then ["minutes"] else []) ++
     (if q.seconds > 32767 then ["seconds"] else []) ++
     (if q.fraction > 99 then ["fraction"] else []) = []) ↔ ¬ q.over := by
  simp only [List.append_eq_nil, ite_list_eq_nil, Period64.over]
  tauto

lemma toPeriod_ok_of_not_over (q : Period64) (h : ¬ q.over) :
    q.toPeriod =
      (if q.neg then
        Except.ok ⟨w16 (-q.years), w16 (-q.months), w16 (-q.days), w16 (-q.hours),
          w16 (-q.minutes), w16 (-q.seconds), w8 (-q.fraction), q.fpart⟩
      else
        Except.ok ⟨w16 q.years, w16 q.months, w16 q.days, w16 q.hours,
          w16 q.minutes, w16 q.seconds, w8 q.fraction, q.fpart⟩) := by
  unfold Period64.toPeriod
  rw [if_neg]
  simp only [ne_eq, not_not]
  exact (toPeriod_fields_nil_iff q).mpr h

lemma toPeriod_error_of_over (q : Period64) (h : q.over) :
    q.toPeriod =
      .error ⟨if q.input = "" then p64String q else q.input,
        (if q.years > 32767 then ["years"] else []) ++
        (if q.months > 32767 then ["months"] else []) ++
        (if q.days > 32767 then ["days"] else []) ++
        (if q.hours > 32767 then ["hours"] else []) ++
        (if q.minutes > 32767 then ["minutes"] else []) ++
        (if q.seconds > 32767 then ["seconds"] else []) ++
        (if q.fraction > 99 then ["fraction"] else [])⟩ := by
  unfold Period64.toPeriod
  rw [if_pos]
  intro hnil
  exact ((toPeriod_fields_nil_iff q).mp hnil) h

lemma toPeriod_isOk_iff (q : Period64) :
    (q.toPeriod).isOk = true ↔ ¬ q.over := by
  constructor
  · intro h hov
    rw [toPeriod_error_of_over q hov] at h
    simp [Except.isOk, Except.toBool] at h
  · intro h
    rw [toPeriod_ok_of_not_over q h]
    split <;> simp [Except.isOk, Except.toBool]

/-- C9: the narrowing checks of `toPeriod` are one-sided: narrowing
succeeds exactly when every field is at most +32767 and the fraction at
most +99, so a staging value carrying a negative field of any magnitude
(or a fraction below -99) is narrowed into a public Period without any
error. -/
theorem C9_toPeriod_checks_one_sided (q : Period64) :
    (q.toPeriod).isOk = true ↔
      (q.years ≤ 32767 ∧ q.months ≤ 32767 ∧ q.days ≤ 32767 ∧
        q.hours ≤ 32767 ∧ q.minutes ≤ 32767 ∧ q.seconds ≤ 32767 ∧
        q.fraction ≤ 99) := by
  rw [toPeriod_isOk_iff]
  unfold Period64.over
  omega

/-- C4: whenever some field of a staging value exceeds the public
maximum magnitude on the positive side (in particular years above
32767), `toPeriod` fails with an overflow error that names every
offending field (years above 32767 yields `"years"`), carries the
original input text when one is known, and produces no Period value. -/
theorem C4_toPeriod_overflow_error (q : Period64)
    (h : 32767 < q.years ∨ 32767 < q.months ∨ 32767 < q.days ∨
      32767 < q.hours ∨ 32767 < q.minutes ∨ 32767 < q.seconds ∨
      99 < q.fraction) :
    ∃ e, q.toPeriod = .error e ∧
      (32767 < q.years → "years" ∈ e.fields) ∧
      (32767 < q.months → "months" ∈ e.fields) ∧
      (32767 < q.days → "days" ∈ e.fields) ∧
      (32767 < q.hours → "hours" ∈ e.fields) ∧
      (32767 < q.minutes → "minutes" ∈ e.fields) ∧
      (32767 < q.seconds → "seconds" ∈ e.fields) ∧
      (99 < q.fraction → "fraction" ∈ e.fields) ∧
      (q.input ≠ "" → e.input = q.input) := by
  refine ⟨_, toPeriod_error_of_over q h, ?_, ?_, ?_, ?_, ?_, ?_, ?_, ?_⟩
  · intro hc; simp [List.mem_append, hc]
  · intro hc; simp [List.mem_append, hc]
  · intro hc; simp [List.mem_append, hc]
  · intro hc; simp [List.mem_append, hc]
  · intro hc; simp [List.mem_append, hc]
  · intro hc; simp [List.mem_append, hc]
  · intro hc; simp [List.mem_append, hc]
  · intro hi; simp [hi]

/-- C4 witness: a staging value with years 40000 and known input fails
with an error naming "years" and carrying the input. -/
theorem C4_toPeriod_overflow_error_witness :
    ∃ e, Period64.toPeriod ⟨40000, 0, 0, 0, 0, 0, 0, .NoFraction, false, "P40000Y"⟩
        = .error e ∧
      (32767 < (40000:Int) → "years" ∈ e.fields) ∧
      (32767 < (0:Int) → "months" ∈ e.fields) ∧
      (32767 < (0:Int) → "days" ∈ e.fields) ∧
      (32767 < (0:Int) → "hours" ∈ e.fields) ∧
      (32767 < (0:Int) → "minutes" ∈ e.fields) ∧
      (32767 < (0:Int) → "seconds" ∈ e.fields) ∧
      (99 < (0:Int) → "fraction" ∈ e.fields) ∧
      ("P40000Y" ≠ "" → e.input = "P40000Y") :=
  C4_toPeriod_overflow_error ⟨40000, 0, 0, 0, 0, 0, 0, .NoFraction, false, "P40000Y"⟩
    (by decide)

/-- C6: each fraction-reduction pass used by `normalise64` either
commits — only when the converted centi-value has zero remainder
modulo 100, adding exactly the whole converted units to the target
field and clearing the fraction and designator — or returns the value
completely unchanged (all six fields, fraction and designator); a
non-exact fraction is never rounded or moved in part. -/
theorem C6_fraction_reduction_commit_or_identity (p : Period64) (precise : Bool) :
    ((p.fpart = .Year ∧ gmod (gmul 12 p.fraction) 100 = 0 ∧
        p.reduceYearsFraction =
          { p with months := gadd p.months (gdiv (gmul 12 p.fraction) 100),
                   fraction := 0, fpart := .NoFraction }) ∨
      p.reduceYearsFraction = p) ∧
    ((precise = false ∧ p.fpart = .Day ∧ gmod (gmul 24 p.fraction) 100 = 0 ∧
        p.reduceDaysFraction precise =
          { p with hours := gadd p.hours (gdiv (gmul 24 p.fraction) 100),
                   fraction := 0, fpart := .NoFraction }) ∨
      p.reduceDaysFraction precise = p) ∧
    ((p.fpart = .Hour ∧ gmod (gmul 60 p.fraction) 100 = 0 ∧
        p.reduceHoursFraction =
          { p with minutes := gadd p.minutes (gdiv (gmul 60 p.fraction) 100),
                   fraction := 0, fpart := .NoFraction }) ∨
      p.reduceHoursFraction = p) ∧
    ((p.fpart = .Minute ∧ gmod (gmul 60 p.fraction) 100 = 0 ∧
        p.reduceMinutesFraction =
          { p with seconds := gadd p.seconds (gdiv (gmul 60 p.fraction) 100),
                   fraction := 0, fpart := .NoFraction }) ∨
      p.reduceMinutesFraction = p) := by
  refine ⟨?_, ?_, ?_, ?_⟩
  · simp only [Period64.reduceYearsFraction]
    split_ifs with h1 h2
    · exact Or.inl ⟨h1, h2, rfl⟩
    · exact Or.inr rfl
    · exact Or.inr rfl
  · simp only [Period64.reduceDaysFraction]
    split_ifs with h1 h2
    · simp only [Bool.and_eq_true, Bool.not_eq_true', decide_eq_true_eq] at h1
      exact Or.inl ⟨h1.1, h1.2, h2, rfl⟩
    · exact Or.inr rfl
    · exact Or.inr rfl
  · simp only [Period64.reduceHoursFraction]
    split_ifs with h1 h2
    · exact Or.inl ⟨h1, h2, rfl⟩
    · exact Or.inr rfl
    · exact Or.inr rfl
  · simp only [Period64.reduceMinutesFraction]
    split_ifs with h1 h2
    · exact Or.inl ⟨h1, h2, rfl⟩
    · exact Or.inr rfl
    · exact Or.inr rfl

/-- C5: when the fraction designator is none of Year, Month, Day (every
date-scale field is whole), `AddTo` applies the calendar-exact
whole-date addition capability to the timestamp, then adds the exact
hour/minute/second elapsed-time offset, and reports precise = true. -/
theorem C5_AddTo_exact_branch {T : Type} (addDate : T → Int → Int → Int → T)
    (addDur : T → Int → T) (p : Period) (t : T)
    (hy : p.fpart ≠ .Year) (hm : p.fpart ≠ .Month) (hd : p.fpart ≠ .Day) :
    p.AddTo addDate addDur t =
      (addDur (addDate t p.years p.months p.days) p.hmsDuration, true) := by
  unfold Period.AddTo
  rw [if_pos ⟨hy, hm, hd⟩]

/-- Concrete timestamp model used only by witnesses: nanosecond count
with a toy calendar capability. -/
def wAddDate (t y mo d : Int) : Int := t + y * 1000000 + mo * 10000 + d

/-- Concrete elapsed-time capability used only by witnesses. -/
def wAddDur (t n : Int) : Int := t + n

/-- C5 witness: a pure clock period with a Minute fraction takes the
exact branch on the concrete timestamp model. -/
theorem C5_AddTo_exact_branch_witness :
    Period.AddTo wAddDate wAddDur ⟨0, 0, 0, 1, 2, 3, 50, .Minute⟩ 7 =
      (wAddDur (wAddDate 7 0 0 0)
        (Period.hmsDuration ⟨0, 0, 0, 1, 2, 3, 50, .Minute⟩), true) :=
  C5_AddTo_exact_branch wAddDate wAddDur ⟨0, 0, 0, 1, 2, 3, 50, .Minute⟩ 7
    (by decide) (by decide) (by decide)

/-- C8: scaling with divisor zero aborts (the modelled Go panic at the
first `%` operation), and with any non-zero divisor `rationalScale64`
never produces that abort outcome. -/
theorem C8_rationalScale64_zero_divisor_aborts (p : Period) (m d : Int) :
    (d = 0 → p.rationalScale64 m d = .divByZero) ∧
    (d ≠ 0 → p.rationalScale64 m d ≠ .divByZero) := by
  constructor
  · intro h
    simp only [Period.rationalScale64, h, if_pos]
  · intro h
    simp only [Period.rationalScale64, if_neg h]
    split_ifs <;> (repeat' split) <;> simp

/-- C8 witness: divisor 0 aborts on a concrete period, divisor 1 does
not. -/
theorem C8_rationalScale64_zero_divisor_aborts_witness :
    Period.rationalScale64 ⟨0, 0, 1, 0, 0, 0, 0, .NoFraction⟩ 1 0 = .divByZero ∧
    Period.rationalScale64 ⟨0, 0, 1, 0, 0, 0, 0, .NoFraction⟩ 1 1 ≠ .divByZero :=
  ⟨(C8_rationalScale64_zero_divisor_aborts ⟨0, 0, 1, 0, 0, 0, 0, .NoFraction⟩ 1 0).1 rfl,
   (C8_rationalScale64_zero_divisor_aborts ⟨0, 0, 1, 0, 0, 0, 0, .NoFraction⟩ 1 1).2 (by decide)⟩

lemma go_exact_div_mul_cancel {x d : Int}
    (hx1 : -2^63 ≤ x) (hx2 : x < 2^63) (hd : d ≠ 0)
    (h : Int.tmod x d = 0) : w64 (gdiv x d * d) = x := by
  have hq : Int.tdiv x d * d = x := Int.tdiv_mul_cancel (Int.dvd_of_tmod_eq_zero h)
  have habs : x.natAbs = (Int.tdiv x d).natAbs * d.natAbs := by
    conv_lhs => rw [← hq]
    rw [Int.natAbs_mul]
  have hp : ((2:Int)^63).natAbs = 2^63 := by decide
  by_cases hbig : Int.tdiv x d = 2^63
  · have hdu : d.natAbs = 1 := by
      rw [hbig, hp] at habs
      omega
    have hdo : d = 1 ∨ d = -1 := by omega
    rcases hdo with hdo | hdo
    · subst hdo
      rw [mul_one] at hq
      omega
    · subst hdo
      have hx : x = -(2^63) := by
        rw [hbig] at hq
        omega
      rw [hx]
      decide
  · have hqb : (Int.tdiv x d).natAbs ≤ x.natAbs := by
      have hpos : 0 < d.natAbs := by omega
      calc (Int.tdiv x d).natAbs
          ≤ (Int.tdiv x d).natAbs * d.natAbs := Nat.le_mul_of_pos_right _ hpos
        _ = x.natAbs := habs.symm
    have hr : w64 (Int.tdiv x d) = Int.tdiv x d := by
      apply w64_small <;> omega
    unfold gdiv
    rw [hr, hq]
    exact w64_small hx1 hx2

/-- C10: on the exact path of `rationalScale64` the day-remainder guard
`scd*d != mcd` is always false (exact truncated division satisfies
`(mcd/d)*d = mcd`, including the wrap-around case `minInt64 / -1`), so
the branch that moves the day total into the hour-minute-second group
is dead: the three scaled group totals are passed to `p64Of` divided by
`d` and otherwise unmodified. -/
theorem C10_exact_path_guard_unreachable (p : Period) (m d : Int)
    (hd : d ≠ 0)
    (h1 : gmod (gmul p.absNeg.1.centiYM m) d = 0)
    (h2 : gmod (gmul p.absNeg.1.centiDays m) d = 0)
    (h3 : gmod (gmul p.absNeg.1.centiHMS m) d = 0) :
    p.rationalScale64 m d =
      match p64Of (gdiv (gmul p.absNeg.1.centiYM m) d)
          (gdiv (gmul p.absNeg.1.centiDays m) d)
          (gdiv (gmul p.absNeg.1.centiHMS m) d) p.absNeg.2 with
      | none => .floatBranch
      | some p64 =>
          match p64.toPeriod with
          | .ok r => .ok r
          | .error e => .err e := by
  have hguard : w64 (gdiv (gmul p.absNeg.1.centiDays m) d * d)
      = gmul p.absNeg.1.centiDays m :=
    go_exact_div_mul_cancel (w64_range _).1 (w64_range _).2 hd h2
  simp only [Period.rationalScale64]
  rw [if_neg hd, if_pos (show _ ∧ _ ∧ _ from ⟨h1, h2, h3⟩), if_neg]
  intro hcon
  exact hcon.2 hguard

/-- C10 witness: scaling one day by 2/1 takes the exact path with the
guard false. -/
theorem C10_exact_path_guard_unreachable_witness :
    Period.rationalScale64 ⟨0, 0, 1, 0, 0, 0, 0, .NoFraction⟩ 2 1 =
      match p64Of (gdiv (gmul (Period.absNeg ⟨0, 0, 1, 0, 0, 0, 0, .NoFraction⟩).1.centiYM 2) 1)
          (gdiv (gmul (Period.absNeg ⟨0, 0, 1, 0, 0, 0, 0, .NoFraction⟩).1.centiDays 2) 1)
          (gdiv (gmul (Period.absNeg ⟨0, 0, 1, 0, 0, 0, 0, .NoFraction⟩).1.centiHMS 2) 1)
          (Period.absNeg ⟨0, 0, 1, 0, 0, 0, 0, .NoFraction⟩).2 with
      | none => .floatBranch
      | some p64 =>
          match p64.toPeriod with
          | .ok r => .ok r
          | .error e => .err e :=
  C10_exact_path_guard_unreachable ⟨0, 0, 1, 0, 0, 0, 0, .NoFraction⟩ 2 1
    (by decide) (by decide) (by decide) (by decide)

/-- C2 counterexample: adding two valid periods of about 30000.5 years
each (fraction on Year and on Month, forcing the general path) makes
the combined year total overflow during narrowing; `Add` returns the
zero `Period{}` with no error channel at all, instead of surfacing the
overflow error that the narrowing step produced internally. -/
theorem C2_add_silently_discards_overflow_cex :
    Period.Add ⟨30000, 0, 0, 0, 0, 0, 50, .Year⟩ ⟨30000, 0, 0, 0, 0, 0, 50, .Month⟩
        = some zeroPeriod ∧
      Period.nonTrivialCore ⟨30000, 0, 0, 0, 0, 0, 50, .Year⟩
          ⟨30000, 0, 0, 0, 0, 0, 50, .Month⟩
        = some ⟨60000, 6, 0, 0, 0, 0, 50, .Month, false, ""⟩ ∧
      (Period64.toPeriod ⟨60000, 6, 0, 0, 0, 0, 50, .Month, false, ""⟩).isOk = false ∧
      Period.valid ⟨30000, 0, 0, 0, 0, 0, 50, .Year⟩ ∧
      Period.valid ⟨30000, 0, 0, 0, 0, 0, 50, .Month⟩ := by
  refine ⟨by decide, by decide, by decide, by decide, by decide⟩

/-- C2 amended: only `RationalScale` / `ScaleWithOverflowCheck` surface
the narrowing overflow error to the caller; `Add`'s general path
discards it and returns the zero Period (and `Scale` discards the error
of `ScaleWithOverflowCheck` by construction). -/
theorem C2_amended_overflow_error_surfacing :
    (∀ a b : Period, ∀ q : Period64, a.nonTrivialCore b = some q →
      (q.toPeriod).isOk = false → a.nonTrivialAdd b = some zeroPeriod) ∧
    (∀ (p : Period) (m d : Int), ∀ (q : Period64) (e : OverflowError), d ≠ 0 →
      gmod (gmul p.absNeg.1.centiYM m) d = 0 →
      gmod (gmul p.absNeg.1.centiDays m) d = 0 →
      gmod (gmul p.absNeg.1.centiHMS m) d = 0 →
      p64Of (gdiv (gmul p.absNeg.1.centiYM m) d)
          (gdiv (gmul p.absNeg.1.centiDays m) d)
          (gdiv (gmul p.absNeg.1.centiHMS m) d) p.absNeg.2 = some q →
      q.toPeriod = .error e →
      p.rationalScale64 m d = .err e) := by
  constructor
  · intro a b q hcore hnotok
    unfold Period.nonTrivialAdd
    rw [hcore, Option.map_some']
    cases hq : q.toPeriod with
    | ok r => rw [hq] at hnotok; simp [Except.isOk, Except.toBool] at hnotok
    | error e => simp only [hq]
  · intro p m d q e hd h1 h2 h3 hp64 herr
    have hguard : w64 (gdiv (gmul p.absNeg.1.centiDays m) d * d)
        = gmul p.absNeg.1.centiDays m :=
      go_exact_div_mul_cancel (w64_range _).1 (w64_range _).2 hd h2
    simp only [Period.rationalScale64]
    rw [if_neg hd, if_pos (show _ ∧ _ ∧ _ from ⟨h1, h2, h3⟩), if_neg]
    · rw [hp64]
      simp only [herr]
    · intro hcon
      exact hcon.2 hguard

/-- C2 amended witness: the discarded error on a concrete Add pair and
the surfaced error on a concrete overflowing scaling. -/
theorem C2_amended_overflow_error_surfacing_witness :
    Period.nonTrivialAdd ⟨30001, 0, 0, 0, 0, 0, 50, .Year⟩ ⟨30001, 0, 0, 0, 0, 0, 50, .Month⟩
        = some zeroPeriod ∧
    Period.rationalScale64 ⟨32767, 32767, 0, 0, 0, 0, 0, .NoFraction⟩ 1 1
        = .err ⟨"P35497Y7M0DT0H0M0S", ["years"]⟩ :=
  ⟨C2_amended_overflow_error_surfacing.1 ⟨30001, 0, 0, 0, 0, 0, 50, .Year⟩
      ⟨30001, 0, 0, 0, 0, 0, 50, .Month⟩
      ⟨60002, 6, 0, 0, 0, 0, 50, .Month, false, ""⟩ (by decide) (by decide),
   C2_amended_overflow_error_surfacing.2 ⟨32767, 32767, 0, 0, 0, 0, 0, .NoFraction⟩ 1 1
      ⟨35497, 7, 0, 0, 0, 0, 0, .NoFraction, false, ""⟩
      ⟨"P35497Y7M0DT0H0M0S", ["years"]⟩
      (by decide) (by decide) (by decide) (by decide) (by decide) (by decide)⟩

lemma simpleAdd_comm (a b : Period)
    (hfa : a.fraction = 0 ↔ a.fpart = .NoFraction)
    (hfb : b.fraction = 0 ↔ b.fpart = .NoFraction)
    (hfp : a.fpart = b.fpart ∨ a.fpart = .NoFraction ∨ b.fpart = .NoFraction)
    (hs : a.Sign = b.Sign) :
    a.simpleAdd b = b.simpleAdd a := by
  by_cases hA : a.fpart = .NoFraction <;> by_cases hB : b.fpart = .NoFraction
  · have ha0 : a.fraction = 0 := hfa.mpr hA
    have hb0 : b.fraction = 0 := hfb.mpr hB
    simp [Period.simpleAdd, hA, hB, ha0, hb0, gadd16_comm]
  · simp [Period.simpleAdd, hA, hB, gadd16_comm]
  · simp [Period.simpleAdd, hA, hB, gadd16_comm]
  · have hE : a.fpart = b.fpart := by
      rcases hfp with h | h | h
      · exact h
      · exact absurd h hA
      · exact absurd h hB
    have hcomm : b.fraction + a.fraction = a.fraction + b.fraction :=
      Int.add_comm _ _
    by_cases hG : a.fraction + b.fraction > 99 ∨ a.fraction + b.fraction < -99
    · cases hd : a.fpart with
      | NoFraction => exact absurd hd hA
      | Year =>
          have hd' : b.fpart = .Year := hE ▸ hd
          simp [Period.simpleAdd, hA, hB, hd, hd', hcomm, hG, Period.bumpField,
            hs, gadd16_comm, gadd16_rot, gadd16_rot']
      | Month =>
          have hd' : b.fpart = .Month := hE ▸ hd
          simp [Period.simpleAdd, hA, hB, hd, hd', hcomm, hG, Period.bumpField,
            hs, gadd16_comm, gadd16_rot, gadd16_rot']
      | Day =>
          have hd' : b.fpart = .Day := hE ▸ hd
          simp [Period.simpleAdd, hA, hB, hd, hd', hcomm, hG, Period.bumpField,
            hs, gadd16_comm, gadd16_rot, gadd16_rot']
      | Hour =>
          have hd' : b.fpart = .Hour := hE ▸ hd
          simp [Period.simpleAdd, hA, hB, hd, hd', hcomm, hG, Period.bumpField,
            hs, gadd16_comm, gadd16_rot, gadd16_rot']
      | Minute =>
          have hd' : b.fpart = .Minute := hE ▸ hd
          simp [Period.simpleAdd, hA, hB, hd, hd', hcomm, hG, Period.bumpField,
            hs, gadd16_comm, gadd16_rot, gadd16_rot']
      | Second =>
          have hd' : b.fpart = .Second := hE ▸ hd
          simp [Period.simpleAdd, hA, hB, hd, hd', hcomm, hG, Period.bumpField,
            hs, gadd16_comm, gadd16_rot, gadd16_rot']
    · simp [Period.simpleAdd, hA, hB, hE, hcomm, hG, gadd16_comm]

/-- C3: addition is commutative for valid operands: both calls take the
same path (the path condition is symmetric) and both the fast-path
field/fraction sums and the general centi-unit group sums commute. -/
theorem C3_Add_commutative (a b : Period) (hva : a.valid) (hvb : b.valid) :
    a.Add b = b.Add a := by
  obtain ⟨-, -, -, -, -, -, -, hfa, -⟩ := hva
  obtain ⟨-, -, -, -, -, -, -, hfb, -⟩ := hvb
  unfold Period.Add
  by_cases hc : (a.fpart = b.fpart ∨ a.fpart = .NoFraction ∨ b.fpart = .NoFraction)
      ∧ a.Sign = b.Sign
  · have hc' : (b.fpart = a.fpart ∨ b.fpart = .NoFraction ∨ a.fpart = .NoFraction)
        ∧ b.Sign = a.Sign := by
      refine ⟨?_, hc.2.symm⟩
      rcases hc.1 with h | h | h
      · exact Or.inl h.symm
      · exact Or.inr (Or.inr h)
      · exact Or.inr (Or.inl h)
    rw [if_pos hc, if_pos hc']
    exact congrArg some (simpleAdd_comm a b hfa hfb hc.1 hc.2)
  · have hc' : ¬ ((b.fpart = a.fpart ∨ b.fpart = .NoFraction ∨ a.fpart = .NoFraction)
        ∧ b.Sign = a.Sign) := by
      intro hcon
      apply hc
      refine ⟨?_, hcon.2.symm⟩
      rcases hcon.1 with h | h | h
      · exact Or.inl h.symm
      · exact Or.inr (Or.inr h)
      · exact Or.inr (Or.inl h)
    rw [if_neg hc, if_neg hc']
    unfold Period.nonTrivialAdd Period.nonTrivialCore
    rw [gadd_comm b.centiYM a.centiYM, gadd_comm b.centiDays a.centiDays,
      gadd_comm b.centiHMS a.centiHMS]

/-- C3 witness: commutativity on a concrete valid pair taking the
general path (fractions on different designators). -/
theorem C3_Add_commutative_witness :
    Period.Add ⟨1, 0, 0, 0, 0, 0, 50, .Year⟩ ⟨0, 0, 0, 2, 0, 0, 25, .Hour⟩ =
      Period.Add ⟨0, 0, 0, 2, 0, 0, 25, .Hour⟩ ⟨1, 0, 0, 0, 0, 0, 50, .Year⟩ :=
  C3_Add_commutative ⟨1, 0, 0, 0, 0, 0, 50, .Year⟩ ⟨0, 0, 0, 2, 0, 0, 25, .Hour⟩
    (by decide) (by decide)

lemma rippleUp_eval (mo d s fr : Int) (fp : Designator) (neg : Bool) (inp : String)
    (hm0 : 0 ≤ mo) (hm1 : mo < 2^63)
    (hd0 : 0 ≤ d) (hd1 : d ≤ 32767)
    (hs0 : 0 ≤ s) (hs1 : s < 2^63)
    (hh : s / 3600 ≤ 32767) :
    Period64.rippleUp ⟨0, mo, d, 0, 0, s, fr, fp, neg, inp⟩ true =
      some ⟨mo / 12, mo % 12, d, s / 3600, s / 60 - s / 3600 * 60, s % 60, fr, fp, neg, inp⟩ := by
  have h1 : gmul (0:Int) 3600 = 0 := by decide
  have h2 : gmul (0:Int) 60 = 0 := by decide
  have h3 : gadd (0:Int) 0 = 0 := by decide
  have h4 : gadd (0:Int) s = s := by
    unfold gadd
    rw [Int.zero_add]
    exact w64_small (by omega) hs1
  have hdiv3600 : gdiv s 3600 = s / 3600 := gdiv_eq hs0 hs1 (by norm_num)
  have hdiv60 : gdiv s 60 = s / 60 := gdiv_eq hs0 hs1 (by norm_num)
  have hmul60 : gmul (s / 3600) 60 = s / 3600 * 60 := by
    apply gmul_eq <;> omega
  have hsub : gsub (s / 60) (s / 3600 * 60) = s / 60 - s / 3600 * 60 := by
    unfold gsub
    apply w64_small <;> omega
  have hmod60 : gmod s 60 = s % 60 := gmod_eq hs0 (by norm_num)
  have hdiv12 : gdiv mo 12 = mo / 12 := gdiv_eq hm0 hm1 (by norm_num)
  have hadd0 : gadd 0 (mo / 12) = mo / 12 := by
    unfold gadd
    rw [Int.zero_add]
    apply w64_small <;> omega
  have hmod12 : gmod mo 12 = mo % 12 := gmod_eq hm0 (by norm_num)
  have hc1 : ¬ (s < 0) := by omega
  have hc2 : ¬ ((decide (gdiv s 3600 > 32767)) = true) := by
    simp only [decide_eq_true_eq]
    rw [hdiv3600]
    omega
  have hc3 : ¬ ((decide (d > 32767) || decide (d < 0)) = true) := by
    simp only [Bool.or_eq_true, decide_eq_true_eq]
    omega
  simp only [Period64.rippleUp, h1, h2, h3, h4, Bool.not_true, Bool.false_or,
    if_neg hc1, if_neg hc2, if_neg hc3]
  by_cases hmo : mo = 0
  · subst hmo
    rw [if_neg (by omega : ¬ ((0:Int) ≠ 0))]
    simp only [hdiv3600, hdiv60, hmul60, hsub, hmod60]
    norm_num
  · rw [if_pos hmo]
    simp only [hdiv3600, hdiv60, hmul60, hsub, hmod60, hdiv12, hadd0, hmod12]

lemma reduces_noop (q : Period64)
    (h : q.fpart = .NoFraction ∨ q.fpart = .Month ∨ q.fpart = .Day ∨ q.fpart = .Second) :
    (((q.reduceYearsFraction).reduceDaysFraction true).reduceHoursFraction).reduceMinutesFraction
      = q := by
  have h1 : q.reduceYearsFraction = q := by
    unfold Period64.reduceYearsFraction
    rw [if_neg]
    rcases h with h | h | h | h <;> simp [h]
  have h2 : q.reduceDaysFraction true = q := by
    unfold Period64.reduceDaysFraction
    rw [if_neg]
    simp
  have h3 : q.reduceHoursFraction = q := by
    unfold Period64.reduceHoursFraction
    rw [if_neg]
    rcases h with h | h | h | h <;> simp [h]
  have h4 : q.reduceMinutesFraction = q := by
    unfold Period64.reduceMinutesFraction
    rw [if_neg]
    rcases h with h | h | h | h <;> simp [h]
  rw [h1, h2, h3, h4]

lemma p64Of_eval (cym cd chms : Int) (neg : Bool)
    (hcym0 : 0 ≤ cym) (hcym1 : cym < 2^63)
    (hcd0 : 0 ≤ cd) (hcd1 : cd < 2^63)
    (hch0 : 0 ≤ chms) (hch1 : chms < 2^63)
    (hdays : cd / 100 ≤ 32767)
    (hhours : chms / 100 / 3600 ≤ 32767) :
    p64Of cym cd chms neg =
      some ⟨cym / 100 / 12, cym / 100 % 12, cd / 100,
        chms / 100 / 3600, chms / 100 / 60 - chms / 100 / 3600 * 60, chms / 100 % 60,
        if chms % 100 ≠ 0 then chms % 100 else if cd % 100 ≠ 0 then cd % 100 else cym % 100,
        if chms % 100 ≠ 0 then .Second else if cd % 100 ≠ 0 then .Day
          else if cym % 100 ≠ 0 then .Month else .NoFraction,
        neg, ""⟩ := by
  have hdYM : gdiv cym 100 = cym / 100 := gdiv_eq hcym0 hcym1 (by norm_num)
  have hdD : gdiv cd 100 = cd / 100 := gdiv_eq hcd0 hcd1 (by norm_num)
  have hdS : gdiv chms 100 = chms / 100 := gdiv_eq hch0 hch1 (by norm_num)
  have hmYM : gmod cym 100 = cym % 100 := gmod_eq hcym0 (by norm_num)
  have hmD : gmod cd 100 = cd % 100 := gmod_eq hcd0 (by norm_num)
  have hmS : gmod chms 100 = chms % 100 := gmod_eq hch0 (by norm_num)
  have hwYM : w8 (cym % 100) = cym % 100 := w8_small (by omega) (by omega)
  have hwD : w8 (cd % 100) = cd % 100 := w8_small (by omega) (by omega)
  have hwS : w8 (chms % 100) = chms % 100 := w8_small (by omega) (by omega)
  have hm0 : 0 ≤ cym / 100 := by omega
  have hm1 : cym / 100 < 2^63 := by omega
  have hs0 : 0 ≤ chms / 100 := by omega
  have hs1 : chms / 100 < 2^63 := by omega
  have hd0 : 0 ≤ cd / 100 := by omega
  have key : ∀ (F : Int) (FP : Designator),
      (FP = .NoFraction ∨ FP = .Month ∨ FP = .Day ∨ FP = .Second) →
      Period64.normalise64 ⟨0, cym / 100, cd / 100, 0, 0, chms / 100, F, FP, neg, ""⟩ true =
        some ⟨cym / 100 / 12, cym / 100 % 12, cd / 100, chms / 100 / 3600,
          chms / 100 / 60 - chms / 100 / 3600 * 60, chms / 100 % 60, F, FP, neg, ""⟩ := by
    intro F FP hFP
    unfold Period64.normalise64
    rw [rippleUp_eval (cym / 100) (cd / 100) (chms / 100) F FP neg ""
      hm0 hm1 hd0 hdays hs0 hs1 hhours, Option.map_some', reduces_noop _ hFP]
  simp only [p64Of, hdYM, hdD, hdS, hmYM, hmD, hmS, hwYM, hwD, hwS]
  split_ifs
  all_goals try dsimp only
  all_goals rw [key _ _ (by simp)]
  all_goals first
    | rfl
    | (refine congrArg some ?_
       simp only [Period64.mk.injEq, and_true, true_and]
       omega)

lemma toPeriod_ok_eval (q : Period64)
    (h1 : 0 ≤ q.years) (h2 : q.years ≤ 32767)
    (h3 : 0 ≤ q.months) (h4 : q.months ≤ 32767)
    (h5 : 0 ≤ q.days) (h6 : q.days ≤ 32767)
    (h7 : 0 ≤ q.hours) (h8 : q.hours ≤ 32767)
    (h9 : 0 ≤ q.minutes) (h10 : q.minutes ≤ 32767)
    (h11 : 0 ≤ q.seconds) (h12 : q.seconds ≤ 32767)
    (h13 : 0 ≤ q.fraction) (h14 : q.fraction ≤ 99) :
    q.toPeriod = .ok
      (if q.neg then
        ⟨-q.years, -q.months, -q.days, -q.hours, -q.minutes, -q.seconds, -q.fraction, q.fpart⟩
      else
        ⟨q.years, q.months, q.days, q.hours, q.minutes, q.seconds, q.fraction, q.fpart⟩) := by
  rw [toPeriod_ok_of_not_over q (by unfold Period64.over; omega)]
  have e1 : w16 (-q.years) = -q.years := w16_small (by omega) (by omega)
  have e2 : w16 (-q.months) = -q.months := w16_small (by omega) (by omega)
  have e3 : w16 (-q.days) = -q.days := w16_small (by omega) (by omega)
  have e4 : w16 (-q.hours) = -q.hours := w16_small (by omega) (by omega)
  have e5 : w16 (-q.minutes) = -q.minutes := w16_small (by omega) (by omega)
  have e6 : w16 (-q.seconds) = -q.seconds := w16_small (by omega) (by omega)
  have e7 : w8 (-q.fraction) = -q.fraction := w8_small (by omega) (by omega)
  have f1 : w16 q.years = q.years := w16_small (by omega) (by omega)
  have f2 : w16 q.months = q.months := w16_small (by omega) (by omega)
  have f3 : w16 q.days = q.days := w16_small (by omega) (by omega)
  have f4 : w16 q.hours = q.hours := w16_small (by omega) (by omega)
  have f5 : w16 q.minutes = q.minutes := w16_small (by omega) (by omega)
  have f6 : w16 q.seconds = q.seconds := w16_small (by omega) (by omega)
  have f7 : w8 q.fraction = q.fraction := w8_small (by omega) (by omega)
  simp only [e1, e2, e3, e4, e5, e6, e7, f1, f2, f3, f4, f5, f6, f7]
  split <;> rfl

lemma zeroPeriod_signInvariant : zeroPeriod.signInvariant := by
  unfold zeroPeriod Period.signInvariant
  left
  refine ⟨le_refl 0, le_refl 0, le_refl 0, le_refl 0, le_refl 0, le_refl 0, le_refl 0⟩

lemma toPeriod_zero_or_sign (q : Period64)
    (h1 : 0 ≤ q.years) (h3 : 0 ≤ q.months) (h5 : 0 ≤ q.days)
    (h7 : 0 ≤ q.hours) (h9 : 0 ≤ q.minutes) (h11 : 0 ≤ q.seconds)
    (h13 : 0 ≤ q.fraction) (h14 : q.fraction ≤ 99) :
    Period.signInvariant (match q.toPeriod with
      | .ok r => r
      | .error _ => zeroPeriod) := by
  by_cases hov : q.over
  · rw [toPeriod_error_of_over q hov]
    exact zeroPeriod_signInvariant
  · unfold Period64.over at hov
    push_neg at hov
    obtain ⟨b1, b2, b3, b4, b5, b6, b7⟩ := hov
    rw [toPeriod_ok_eval q h1 b1 h3 b2 h5 b3 h7 b4 h9 b5 h11 b6 h13 b7]
    dsimp only
    split <;> simp only [Period.signInvariant] <;> omega

lemma centiYM_negrec (p : Period) :
    Period.centiYM ⟨-p.years, -p.months, -p.days, -p.hours, -p.minutes, -p.seconds,
      -p.fraction, p.fpart⟩ = -p.centiYM := by
  cases h : p.fpart <;> simp [Period.centiYM, h] <;> ring

lemma centiDays_negrec (p : Period) :
    Period.centiDays ⟨-p.years, -p.months, -p.days, -p.hours, -p.minutes, -p.seconds,
      -p.fraction, p.fpart⟩ = -p.centiDays := by
  cases h : p.fpart <;> simp [Period.centiDays, h] <;> ring

lemma centiHMS_negrec (p : Period) :
    Period.centiHMS ⟨-p.years, -p.months, -p.days, -p.hours, -p.minutes, -p.seconds,
      -p.fraction, p.fpart⟩ = -p.centiHMS := by
  cases h : p.fpart <;> simp [Period.centiHMS, h] <;> ring

lemma absNeg_of_valid (p : Period) (hv : p.valid) :
    (p.IsNegative = true →
      p.absNeg = (⟨-p.years, -p.months, -p.days, -p.hours, -p.minutes, -p.seconds,
        -p.fraction, p.fpart⟩, true)) ∧
    (p.IsNegative = false → p.absNeg = (p, false)) := by
  obtain ⟨b1, b2, b3, b4, b5, b6, b7, -, -⟩ := hv
  rw [abs_le] at b1 b2 b3 b4 b5 b6 b7
  constructor
  · intro h
    unfold Period.absNeg Period.Negate
    rw [if_pos h]
    have e1 : w16 (-p.years) = -p.years := w16_small (by omega) (by omega)
    have e2 : w16 (-p.months) = -p.months := w16_small (by omega) (by omega)
    have e3 : w16 (-p.days) = -p.days := w16_small (by omega) (by omega)
    have e4 : w16 (-p.hours) = -p.hours := w16_small (by omega) (by omega)
    have e5 : w16 (-p.minutes) = -p.minutes := w16_small (by omega) (by omega)
    have e6 : w16 (-p.seconds) = -p.seconds := w16_small (by omega) (by omega)
    have e7 : w8 (-p.fraction) = -p.fraction := w8_small (by omega) (by omega)
    rw [e1, e2, e3, e4, e5, e6, e7]
  · intro h
    unfold Period.absNeg
    rw [if_neg]
    simp [h]

lemma isNegative_false_fields (p : Period) (h : p.IsNegative = false) :
    0 ≤ p.years ∧ 0 ≤ p.months ∧ 0 ≤ p.days ∧ 0 ≤ p.hours ∧
      0 ≤ p.minutes ∧ 0 ≤ p.seconds ∧ 0 ≤ p.fraction := by
  unfold Period.IsNegative at h
  simp only [Bool.or_eq_false_iff, decide_eq_false_iff_not, Int.not_lt] at h
  tauto

lemma isNegative_true_fields (p : Period) (hv : p.valid) (h : p.IsNegative = true) :
    p.years ≤ 0 ∧ p.months ≤ 0 ∧ p.days ≤ 0 ∧ p.hours ≤ 0 ∧
      p.minutes ≤ 0 ∧ p.seconds ≤ 0 ∧ p.fraction ≤ 0 := by
  obtain ⟨-, -, -, -, -, -, -, -, hsig⟩ := hv
  unfold Period.IsNegative at h
  simp only [Bool.or_eq_true, decide_eq_true_eq] at h
  rcases hsig with hs | hs
  · omega
  · exact hs

lemma centi_nonneg_of_fields (p : Period)
    (h : 0 ≤ p.years ∧ 0 ≤ p.months ∧ 0 ≤ p.days ∧ 0 ≤ p.hours ∧
      0 ≤ p.minutes ∧ 0 ≤ p.seconds ∧ 0 ≤ p.fraction) :
    0 ≤ p.centiYM ∧ 0 ≤ p.centiDays ∧ 0 ≤ p.centiHMS := by
  cases hfp : p.fpart <;>
    simp [Period.centiYM, Period.centiDays, Period.centiHMS, hfp] <;>
    omega

lemma centi_bound_of_valid (p : Period) (hv : p.valid) :
    p.centiYM.natAbs ≤ 42598288 ∧ p.centiDays.natAbs ≤ 3276799 ∧
      p.centiHMS.natAbs ≤ 11996355100 := by
  obtain ⟨b1, b2, b3, b4, b5, b6, b7, -, -⟩ := hv
  rw [abs_le] at b1 b2 b3 b4 b5 b6 b7
  cases hfp : p.fpart <;>
    simp [Period.centiYM, Period.centiDays, Period.centiHMS, hfp] <;>
    omega

lemma centi_rem_two_zero (q : Period) :
    (q.centiYM % 100 = 0 ∧ q.centiDays % 100 = 0) ∨
    (q.centiYM % 100 = 0 ∧ q.centiHMS % 100 = 0) ∨
    (q.centiDays % 100 = 0 ∧ q.centiHMS % 100 = 0) := by
  cases h : q.fpart <;>
    simp [Period.centiYM, Period.centiDays, Period.centiHMS, h] <;>
    omega

lemma centi_of_eval (cym cd chms : Int)
    (h1 : 0 ≤ cym) (h2 : 0 ≤ cd) (h3 : 0 ≤ chms)
    (htwo : (cym % 100 = 0 ∧ cd % 100 = 0) ∨ (cym % 100 = 0 ∧ chms % 100 = 0) ∨
      (cd % 100 = 0 ∧ chms % 100 = 0)) :
    Period.centiYM ⟨cym / 100 / 12, cym / 100 % 12, cd / 100, chms / 100 / 3600,
        chms / 100 / 60 - chms / 100 / 3600 * 60, chms / 100 % 60,
        (if chms % 100 ≠ 0 then chms % 100 else if cd % 100 ≠ 0 then cd % 100 else cym % 100),
        (if chms % 100 ≠ 0 then .Second else if cd % 100 ≠ 0 then .Day
          else if cym % 100 ≠ 0 then .Month else .NoFraction)⟩ = cym ∧
    Period.centiDays ⟨cym / 100 / 12, cym / 100 % 12, cd / 100, chms / 100 / 3600,
        chms / 100 / 60 - chms / 100 / 3600 * 60, chms / 100 % 60,
        (if chms % 100 ≠ 0 then chms % 100 else if cd % 100 ≠ 0 then cd % 100 else cym % 100),
        (if chms % 100 ≠ 0 then .Second else if cd % 100 ≠ 0 then .Day
          else if cym % 100 ≠ 0 then .Month else .NoFraction)⟩ = cd ∧
    Period.centiHMS ⟨cym / 100 / 12, cym / 100 % 12, cd / 100, chms / 100 / 3600,
        chms / 100 / 60 - chms / 100 / 3600 * 60, chms / 100 % 60,
        (if chms % 100 ≠ 0 then chms % 100 else if cd % 100 ≠ 0 then cd % 100 else cym % 100),
        (if chms % 100 ≠ 0 then .Second else if cd % 100 ≠ 0 then .Day
          else if cym % 100 ≠ 0 then .Month else .NoFraction)⟩ = chms := by
  by_cases hC : chms % 100 ≠ 0 <;> by_cases hB : cd % 100 ≠ 0 <;> by_cases hA : cym % 100 ≠ 0 <;>
    simp [Period.centiYM, Period.centiDays, Period.centiHMS, hA, hB, hC] <;>
    omega

lemma scale11_eval (A : Period) (nf : Bool) (p : Period) (hap : p.absNeg = (A, nf))
    (hA0 : 0 ≤ A.centiYM) (hA1 : A.centiYM < 2^63)
    (hB0 : 0 ≤ A.centiDays) (hB1 : A.centiDays < 2^63)
    (hC0 : 0 ≤ A.centiHMS) (hC1 : A.centiHMS < 2^63)
    (hY : A.centiYM / 100 / 12 ≤ 32767)
    (hD : A.centiDays / 100 ≤ 32767)
    (hH : A.centiHMS / 100 / 3600 ≤ 32767) :
    p.rationalScale64 1 1 = .ok
      (if nf then
        ⟨-(A.centiYM / 100 / 12), -(A.centiYM / 100 % 12), -(A.centiDays / 100),
          -(A.centiHMS / 100 / 3600), -(A.centiHMS / 100 / 60 - A.centiHMS / 100 / 3600 * 60),
          -(A.centiHMS / 100 % 60),
          -(if A.centiHMS % 100 ≠ 0 then A.centiHMS % 100
            else if A.centiDays % 100 ≠ 0 then A.centiDays % 100 else A.centiYM % 100),
          (if A.centiHMS % 100 ≠ 0 then .Second else if A.centiDays % 100 ≠ 0 then .Day
            else if A.centiYM % 100 ≠ 0 then .Month else .NoFraction)⟩
      else
        ⟨A.centiYM / 100 / 12, A.centiYM / 100 % 12, A.centiDays / 100,
          A.centiHMS / 100 / 3600, A.centiHMS / 100 / 60 - A.centiHMS / 100 / 3600 * 60,
          A.centiHMS / 100 % 60,
          (if A.centiHMS % 100 ≠ 0 then A.centiHMS % 100
            else if A.centiDays % 100 ≠ 0 then A.centiDays % 100 else A.centiYM % 100),
          (if A.centiHMS % 100 ≠ 0 then .Second else if A.centiDays % 100 ≠ 0 then .Day
            else if A.centiYM % 100 ≠ 0 then .Month else .NoFraction)⟩) := by
  have hm1 : gmul A.centiYM 1 = A.centiYM := by
    unfold gmul; rw [mul_one]; exact w64_small (by omega) (by omega)
  have hm2 : gmul A.centiDays 1 = A.centiDays := by
    unfold gmul; rw [mul_one]; exact w64_small (by omega) (by omega)
  have hm3 : gmul A.centiHMS 1 = A.centiHMS := by
    unfold gmul; rw [mul_one]; exact w64_small (by omega) (by omega)
  have hz1 : gmod A.centiYM 1 = 0 := Int.tmod_one _
  have hz2 : gmod A.centiDays 1 = 0 := Int.tmod_one _
  have hz3 : gmod A.centiHMS 1 = 0 := Int.tmod_one _
  have hq1 : gdiv A.centiYM 1 = A.centiYM := by
    unfold gdiv; rw [Int.tdiv_one]; exact w64_small (by omega) (by omega)
  have hq2 : gdiv A.centiDays 1 = A.centiDays := by
    unfold gdiv; rw [Int.tdiv_one]; exact w64_small (by omega) (by omega)
  have hq3 : gdiv A.centiHMS 1 = A.centiHMS := by
    unfold gdiv; rw [Int.tdiv_one]; exact w64_small (by omega) (by omega)
  have hfrac0 : 0 ≤ (if A.centiHMS % 100 ≠ 0 then A.centiHMS % 100
      else if A.centiDays % 100 ≠ 0 then A.centiDays % 100 else A.centiYM % 100) := by
    split_ifs <;> omega
  have hfrac99 : (if A.centiHMS % 100 ≠ 0 then A.centiHMS % 100
      else if A.centiDays % 100 ≠ 0 then A.centiDays % 100 else A.centiYM % 100) ≤ 99 := by
    split_ifs <;> omega
  simp only [Period.rationalScale64, hap]
  try dsimp only
  simp only [hm1, hm2, hm3, hz1, hz2, hz3]
  rw [if_neg one_ne_zero, if_pos (by norm_num),
    if_neg (by intro hcon; exact absurd hcon.1 (by norm_num))]
  simp only [hq1, hq2, hq3]
  rw [p64Of_eval A.centiYM A.centiDays A.centiHMS nf hA0 hA1 hB0 hB1 hC0 hC1 hD hH]
  try dsimp only
  rw [toPeriod_ok_eval _ (by try dsimp only; omega) (by try dsimp only; exact hY)
    (by try dsimp only; omega) (by try dsimp only; omega)
    (by try dsimp only; omega) (by try dsimp only; exact hD)
    (by try dsimp only; omega) (by try dsimp only; exact hH)
    (by try dsimp only; omega) (by try dsimp only; omega)
    (by try dsimp only; omega) (by try dsimp only; omega)
    (by try dsimp only; exact hfrac0) (by try dsimp only; exact hfrac99)]
  try dsimp only
  try (split <;> rfl)

/-- C7 amended: scaling by the rational 1/1 succeeds and preserves all
three centi-unit group totals, provided the renormalised year, day and
hour counts stay within the public field bounds. -/
theorem C7_rationalScale_one_identity (p : Period) (hv : p.valid)
    (hY : p.absNeg.1.centiYM / 100 / 12 ≤ 32767)
    (hD : p.absNeg.1.centiDays / 100 ≤ 32767)
    (hH : p.absNeg.1.centiHMS / 100 / 3600 ≤ 32767) :
    ∃ r, p.RationalScale 1 1 = .ok r ∧
      r.centiYM = p.centiYM ∧ r.centiDays = p.centiDays ∧ r.centiHMS = p.centiHMS := by
  obtain ⟨habsT, habsF⟩ := absNeg_of_valid p hv
  have hbound := centi_bound_of_valid p hv
  cases hneg : p.IsNegative with
  | false =>
    have hap := habsF hneg
    have hfields := isNegative_false_fields p hneg
    have hcn := centi_nonneg_of_fields p hfields
    rw [hap] at hY hD hH
    dsimp only at hY hD hH
    have heval := scale11_eval p false p hap
      hcn.1 (by omega) hcn.2.1 (by omega) hcn.2.2 (by omega) hY hD hH
    have hcent := centi_of_eval p.centiYM p.centiDays p.centiHMS
      hcn.1 hcn.2.1 hcn.2.2 (centi_rem_two_zero p)
    refine ⟨_, heval, ?_, ?_, ?_⟩
    · simpa using hcent.1
    · simpa using hcent.2.1
    · simpa using hcent.2.2
  | true =>
    have hap := habsT hneg
    have hfields := isNegative_true_fields p hv hneg
    set A : Period := ⟨-p.years, -p.months, -p.days, -p.hours, -p.minutes, -p.seconds,
      -p.fraction, p.fpart⟩ with hA
    have hAfields : 0 ≤ A.years ∧ 0 ≤ A.months ∧ 0 ≤ A.days ∧ 0 ≤ A.hours ∧
        0 ≤ A.minutes ∧ 0 ≤ A.seconds ∧ 0 ≤ A.fraction := by
      rw [hA]; dsimp only; omega
    have hcn := centi_nonneg_of_fields A hAfields
    have hAym : A.centiYM = -p.centiYM := centiYM_negrec p
    have hAd : A.centiDays = -p.centiDays := centiDays_negrec p
    have hAh : A.centiHMS = -p.centiHMS := centiHMS_negrec p
    rw [hap] at hY hD hH
    dsimp only at hY hD hH
    have heval := scale11_eval A true p hap
      hcn.1 (by rw [hAym]; omega) hcn.2.1 (by rw [hAd]; omega)
      hcn.2.2 (by rw [hAh]; omega) hY hD hH
    have hcent := centi_of_eval A.centiYM A.centiDays A.centiHMS
      hcn.1 hcn.2.1 hcn.2.2 (centi_rem_two_zero A)
    refine ⟨_, heval, ?_, ?_, ?_⟩
    · have hneg1 := centiYM_negrec ⟨A.centiYM / 100 / 12, A.centiYM / 100 % 12,
        A.centiDays / 100, A.centiHMS / 100 / 3600,
        A.centiHMS / 100 / 60 - A.centiHMS / 100 / 3600 * 60, A.centiHMS / 100 % 60,
        (if A.centiHMS % 100 ≠ 0 then A.centiHMS % 100
          else if A.centiDays % 100 ≠ 0 then A.centiDays % 100 else A.centiYM % 100),
        (if A.centiHMS % 100 ≠ 0 then .Second else if A.centiDays % 100 ≠ 0 then .Day
          else if A.centiYM % 100 ≠ 0 then .Month else .NoFraction)⟩
      dsimp only at hneg1 ⊢
      rw [if_pos rfl]
      rw [hneg1, hcent.1, hAym]
      omega
    · have hneg2 := centiDays_negrec ⟨A.centiYM / 100 / 12, A.centiYM / 100 % 12,
        A.centiDays / 100, A.centiHMS / 100 / 3600,
        A.centiHMS / 100 / 60 - A.centiHMS / 100 / 3600 * 60, A.centiHMS / 100 % 60,
        (if A.centiHMS % 100 ≠ 0 then A.centiHMS % 100
          else if A.centiDays % 100 ≠ 0 then A.centiDays % 100 else A.centiYM % 100),
        (if A.centiHMS % 100 ≠ 0 then .Second else if A.centiDays % 100 ≠ 0 then .Day
          else if A.centiYM % 100 ≠ 0 then .Month else .NoFraction)⟩
      dsimp only at hneg2 ⊢
      rw [if_pos rfl]
      rw [hneg2, hcent.2.1, hAd]
      omega
    · have hneg3 := centiHMS_negrec ⟨A.centiYM / 100 / 12, A.centiYM / 100 % 12,
        A.centiDays / 100, A.centiHMS / 100 / 3600,
        A.centiHMS / 100 / 60 - A.centiHMS / 100 / 3600 * 60, A.centiHMS / 100 % 60,
        (if A.centiHMS % 100 ≠ 0 then A.centiHMS % 100
          else if A.centiDays % 100 ≠ 0 then A.centiDays % 100 else A.centiYM % 100),
        (if A.centiHMS % 100 ≠ 0 then .Second else if A.centiDays % 100 ≠ 0 then .Day
          else if A.centiYM % 100 ≠ 0 then .Month else .NoFraction)⟩
      dsimp only at hneg3 ⊢
      rw [if_pos rfl]
      rw [hneg3, hcent.2.2, hAh]
      omega

lemma isZero_false_of_neg (p : Period) (h : p.IsNegative = true) : p.IsZero = false := by
  unfold Period.IsNegative at h
  unfold Period.IsZero
  simp only [Bool.or_eq_true, decide_eq_true_eq] at h
  simp only [Bool.and_eq_false_iff, decide_eq_false_iff_not]
  omega

lemma sign_aligned (a b : Period) (hva : a.valid) (hvb : b.valid) (hs : a.Sign = b.Sign) :
    ((0 ≤ a.years ∧ 0 ≤ a.months ∧ 0 ≤ a.days ∧ 0 ≤ a.hours ∧ 0 ≤ a.minutes ∧
        0 ≤ a.seconds ∧ 0 ≤ a.fraction) ∧
      (0 ≤ b.years ∧ 0 ≤ b.months ∧ 0 ≤ b.days ∧ 0 ≤ b.hours ∧ 0 ≤ b.minutes ∧
        0 ≤ b.seconds ∧ 0 ≤ b.fraction)) ∨
    ((a.years ≤ 0 ∧ a.months ≤ 0 ∧ a.days ≤ 0 ∧ a.hours ≤ 0 ∧ a.minutes ≤ 0 ∧
        a.seconds ≤ 0 ∧ a.fraction ≤ 0) ∧
      (b.years ≤ 0 ∧ b.months ≤ 0 ∧ b.days ≤ 0 ∧ b.hours ≤ 0 ∧ b.minutes ≤ 0 ∧
        b.seconds ≤ 0 ∧ b.fraction ≤ 0)) := by
  by_cases hna : a.IsNegative = true <;> by_cases hnb : b.IsNegative = true
  · exact Or.inr ⟨isNegative_true_fields a hva hna, isNegative_true_fields b hvb hnb⟩
  · exfalso
    unfold Period.Sign at hs
    rw [isZero_false_of_neg a hna] at hs
    simp only [Bool.false_eq_true, if_false, hna, if_true,
      Bool.not_eq_true] at hs
    rw [Bool.not_eq_true] at hnb
    rw [hnb] at hs
    split_ifs at hs <;> simp_all
  · exfalso
    unfold Period.Sign at hs
    rw [isZero_false_of_neg b hnb] at hs
    simp only [Bool.false_eq_true, if_false, hnb, if_true,
      Bool.not_eq_true] at hs
    rw [Bool.not_eq_true] at hna
    rw [hna] at hs
    split_ifs at hs <;> simp_all
  · rw [Bool.not_eq_true] at hna hnb
    exact Or.inl ⟨isNegative_false_fields a hna, isNegative_false_fields b hnb⟩

lemma simpleAdd_signInvariant (a b : Period) (hva : a.valid) (hvb : b.valid)
    (hs : a.Sign = b.Sign)
    (hb1 : |a.years + b.years| ≤ 32766) (hb2 : |a.months + b.months| ≤ 32766)
    (hb3 : |a.days + b.days| ≤ 32766) (hb4 : |a.hours + b.hours| ≤ 32766)
    (hb5 : |a.minutes + b.minutes| ≤ 32766) (hb6 : |a.seconds + b.seconds| ≤ 32766) :
    (a.simpleAdd b).signInvariant := by
  rw [abs_le] at hb1 hb2 hb3 hb4 hb5 hb6
  have hfa : |a.fraction| ≤ 99 := hva.2.2.2.2.2.2.1
  have hfb : |b.fraction| ≤ 99 := hvb.2.2.2.2.2.2.1
  rw [abs_le] at hfa hfb
  have hdir := sign_aligned a b hva hvb hs
  by_cases hA : a.fpart = .NoFraction
  · simp only [Period.simpleAdd, if_pos hA]
    try dsimp only
    rcases hdir with ⟨ha, hb⟩ | ⟨ha, hb⟩ <;>
      simp only [Period.signInvariant, gadd16, w16, w8] <;>
      (try dsimp only) <;> omega
  · by_cases hB : b.fpart = .NoFraction
    · simp only [Period.simpleAdd, if_neg hA, if_pos hB]
      try dsimp only
      rcases hdir with ⟨ha, hb⟩ | ⟨ha, hb⟩ <;>
        simp only [Period.signInvariant, gadd16, w16, w8] <;>
        (try dsimp only) <;> omega
    · simp only [Period.simpleAdd, if_neg hA, if_neg hB]
      by_cases hG : a.fraction + b.fraction > 99 ∨ a.fraction + b.fraction < -99
      · rw [if_pos hG]
        have hz : a.IsZero = false := by
          unfold Period.IsZero
          simp only [Bool.and_eq_false_iff, decide_eq_false_iff_not]
          omega
        rcases hdir with ⟨ha, hb⟩ | ⟨ha, hb⟩
        · have hn : a.IsNegative = false := by
            unfold Period.IsNegative
            simp only [Bool.or_eq_false_iff, decide_eq_false_iff_not]
            omega
          have hsa : a.Sign = 1 := by
            unfold Period.Sign
            rw [hz, hn]
            rfl
          have htm : Int.tmod (a.fraction + b.fraction) 100
              = a.fraction + b.fraction - 100 := by
            rw [Int.tmod_eq_emod (by omega) (by norm_num)]
            omega
          rw [hsa, htm]
          cases hfp : a.fpart <;> (try simp only [Period.bumpField]) <;> (try dsimp only) <;>
            simp only [Period.signInvariant, gadd16, gadd16, w16, w8] <;> (try dsimp only) <;> omega
        · have hneg : a.IsNegative = true := by
            unfold Period.IsNegative
            simp only [Bool.or_eq_true, decide_eq_true_eq]
            omega
          have hsa : a.Sign = -1 := by
            unfold Period.Sign
            rw [hz, hneg]
            rfl
          have htm : Int.tmod (a.fraction + b.fraction) 100
              = a.fraction + b.fraction + 100 := by
            have h1 : Int.tmod (-(a.fraction + b.fraction)) 100
                = -Int.tmod (a.fraction + b.fraction) 100 := by
              rw [Int.tmod_def, Int.tmod_def, Int.neg_tdiv]
              ring
            have h2 : Int.tmod (-(a.fraction + b.fraction)) 100
                = -(a.fraction + b.fraction) - 100 := by
              rw [Int.tmod_eq_emod (by omega) (by norm_num)]
              omega
            omega
          rw [hsa, htm]
          cases hfp : a.fpart <;> (try simp only [Period.bumpField]) <;> (try dsimp only) <;>
            simp only [Period.signInvariant, gadd16, gadd16, w16, w8] <;> (try dsimp only) <;> omega
      · rw [if_neg hG]
        rcases hdir with ⟨ha, hb⟩ | ⟨ha, hb⟩ <;>
          simp only [Period.signInvariant, gadd16, w16, w8] <;>
          (try dsimp only) <;> omega

/-- C1 amended: `Add` preserves the sign invariant on the fast path
whenever no field sum leaves the `int16` range (with room for the
fraction carry), and on the general path whenever the three combined
centi-unit group sums do not have mixed signs and the renormalised day
and hour counts stay within the public bounds; with mixed-sign group
sums the result can violate the invariant. -/
theorem C1_Add_sign_invariant_amended (a b : Period) (hva : a.valid) (hvb : b.valid) :
    ((a.fpart = b.fpart ∨ a.fpart = .NoFraction ∨ b.fpart = .NoFraction) →
      a.Sign = b.Sign →
      (|a.years + b.years| ≤ 32766 ∧ |a.months + b.months| ≤ 32766 ∧
        |a.days + b.days| ≤ 32766 ∧ |a.hours + b.hours| ≤ 32766 ∧
        |a.minutes + b.minutes| ≤ 32766 ∧ |a.seconds + b.seconds| ≤ 32766) →
      ∃ r, a.Add b = some r ∧ r.signInvariant) ∧
    (¬((a.fpart = b.fpart ∨ a.fpart = .NoFraction ∨ b.fpart = .NoFraction)
        ∧ a.Sign = b.Sign) →
      0 ≤ a.centiYM + b.centiYM → 0 ≤ a.centiDays + b.centiDays →
      0 ≤ a.centiHMS + b.centiHMS →
      (a.centiDays + b.centiDays) / 100 ≤ 32767 →
      (a.centiHMS + b.centiHMS) / 100 / 3600 ≤ 32767 →
      ∃ r, a.Add b = some r ∧ r.signInvariant) ∧
    (¬((a.fpart = b.fpart ∨ a.fpart = .NoFraction ∨ b.fpart = .NoFraction)
        ∧ a.Sign = b.Sign) →
      a.centiYM + b.centiYM ≤ 0 → a.centiDays + b.centiDays ≤ 0 →
      a.centiHMS + b.centiHMS ≤ 0 →
      (-(a.centiDays + b.centiDays)) / 100 ≤ 32767 →
      (-(a.centiHMS + b.centiHMS)) / 100 / 3600 ≤ 32767 →
      ∃ r, a.Add b = some r ∧ r.signInvariant) := by
  have hba := centi_bound_of_valid a hva
  have hbb := centi_bound_of_valid b hvb
  have hg1 : gadd a.centiYM b.centiYM = a.centiYM + b.centiYM :=
    gadd_eq (by omega) (by omega)
  have hg2 : gadd a.centiDays b.centiDays = a.centiDays + b.centiDays :=
    gadd_eq (by omega) (by omega)
  have hg3 : gadd a.centiHMS b.centiHMS = a.centiHMS + b.centiHMS :=
    gadd_eq (by omega) (by omega)
  refine ⟨?_, ?_, ?_⟩
  · intro hcond hsig hbounds
    unfold Period.Add
    rw [if_pos ⟨hcond, hsig⟩]
    exact ⟨_, rfl, simpleAdd_signInvariant a b hva hvb hsig hbounds.1 hbounds.2.1
      hbounds.2.2.1 hbounds.2.2.2.1 hbounds.2.2.2.2.1 hbounds.2.2.2.2.2⟩
  · intro hnc h1 h2 h3 hD hH
    unfold Period.Add
    rw [if_neg hnc]
    unfold Period.nonTrivialAdd Period.nonTrivialCore
    simp only [hg1, hg2, hg3]
    rw [if_pos ⟨h1, h2, h3⟩]
    rw [p64Of_eval _ _ _ false h1 (by omega) h2 (by omega) h3 (by omega) hD hH]
    simp only [Option.map_some']
    refine ⟨_, rfl, ?_⟩
    apply toPeriod_zero_or_sign <;> (try dsimp only) <;>
      first
        | omega
        | (split_ifs <;> omega)
  · intro hnc h1 h2 h3 hD hH
    unfold Period.Add
    rw [if_neg hnc]
    unfold Period.nonTrivialAdd Period.nonTrivialCore
    simp only [hg1, hg2, hg3]
    by_cases hz : a.centiYM + b.centiYM ≥ 0 ∧ a.centiDays + b.centiDays ≥ 0 ∧
        a.centiHMS + b.centiHMS ≥ 0
    · have e1 : a.centiYM + b.centiYM = 0 := by omega
      have e2 : a.centiDays + b.centiDays = 0 := by omega
      have e3 : a.centiHMS + b.centiHMS = 0 := by omega
      rw [if_pos hz, e1, e2, e3]
      rw [p64Of_eval 0 0 0 false (by omega) (by omega) (by omega) (by omega)
        (by omega) (by omega) (by decide) (by decide)]
      simp only [Option.map_some']
      exact ⟨_, rfl, by decide⟩
    · rw [if_neg hz]
      have hw1 : w64 (-(a.centiYM + b.centiYM)) = -(a.centiYM + b.centiYM) :=
        w64_small (by omega) (by omega)
      have hw2 : w64 (-(a.centiDays + b.centiDays)) = -(a.centiDays + b.centiDays) :=
        w64_small (by omega) (by omega)
      have hw3 : w64 (-(a.centiHMS + b.centiHMS)) = -(a.centiHMS + b.centiHMS) :=
        w64_small (by omega) (by omega)
      rw [hw1, hw2, hw3]
      rw [p64Of_eval _ _ _ true (by omega) (by omega) (by omega) (by omega)
        (by omega) (by omega) hD hH]
      simp only [Option.map_some']
      refine ⟨_, rfl, ?_⟩
      apply toPeriod_zero_or_sign <;> (try dsimp only) <;>
        first
          | omega
          | (split_ifs <;> omega)

/-- C1 counterexample: adding the valid periods "1 year" and "-2 days"
takes the general path with mixed-sign group sums; the result has a
positive years field and a negative days field, violating the sign
invariant. -/
theorem C1_Add_sign_invariant_cex :
    Period.valid ⟨1, 0, 0, 0, 0, 0, 0, .NoFraction⟩ ∧
    Period.valid ⟨0, 0, -2, 0, 0, 0, 0, .NoFraction⟩ ∧
    Period.Add ⟨1, 0, 0, 0, 0, 0, 0, .NoFraction⟩ ⟨0, 0, -2, 0, 0, 0, 0, .NoFraction⟩
      = some ⟨1, 0, -2, 0, 0, 0, 0, .NoFraction⟩ ∧
    ¬ Period.signInvariant ⟨1, 0, -2, 0, 0, 0, 0, .NoFraction⟩ :=
  ⟨by decide, by decide, by decide, by decide⟩

/-- C1 amended witness: the three provisos instantiated on concrete
valid pairs (fast path with fractions on Year, general path with a
Year fraction against an Hour fraction, and its negation). -/
theorem C1_Add_sign_invariant_amended_witness :
    (∃ r, Period.Add ⟨1, 0, 0, 0, 0, 0, 50, .Year⟩ ⟨2, 0, 0, 0, 0, 0, 25, .Year⟩
        = some r ∧ r.signInvariant) ∧
    (∃ r, Period.Add ⟨1, 0, 0, 0, 0, 0, 50, .Year⟩ ⟨0, 0, 0, 2, 0, 0, 25, .Hour⟩
        = some r ∧ r.signInvariant) ∧
    (∃ r, Period.Add ⟨-1, 0, 0, 0, 0, 0, -50, .Year⟩ ⟨0, 0, 0, -2, 0, 0, -25, .Hour⟩
        = some r ∧ r.signInvariant) :=
  ⟨(C1_Add_sign_invariant_amended ⟨1, 0, 0, 0, 0, 0, 50, .Year⟩
      ⟨2, 0, 0, 0, 0, 0, 25, .Year⟩ (by decide) (by decide)).1
      (by decide) (by decide) (by decide),
   (C1_Add_sign_invariant_amended ⟨1, 0, 0, 0, 0, 0, 50, .Year⟩
      ⟨0, 0, 0, 2, 0, 0, 25, .Hour⟩ (by decide) (by decide)).2.1
      (by decide) (by decide) (by decide) (by decide) (by decide) (by decide),
   (C1_Add_sign_invariant_amended ⟨-1, 0, 0, 0, 0, 0, -50, .Year⟩
      ⟨0, 0, 0, -2, 0, 0, -25, .Hour⟩ (by decide) (by decide)).2.2
      (by decide) (by decide) (by decide) (by decide) (by decide) (by decide)⟩

/-- C7 counterexample: on the valid period "32767 years 32767 months"
the identity scaling `RationalScale(1,1)` does not succeed: the
renormalised year count (35497) overflows the public width and the call
returns an overflow error instead of a period equal to the input. -/
theorem C7_rationalScale_one_identity_cex :
    Period.valid ⟨32767, 32767, 0, 0, 0, 0, 0, .NoFraction⟩ ∧
    Period.RationalScale ⟨32767, 32767, 0, 0, 0, 0, 0, .NoFraction⟩ 1 1
      = .err ⟨"P35497Y7M0DT0H0M0S", ["years"]⟩ :=
  ⟨by decide, by decide⟩

/-- C7 amended witness: identity scaling on a concrete valid period
with an Hour fraction succeeds and preserves all three group totals. -/
theorem C7_rationalScale_one_identity_witness :
    ∃ r, Period.RationalScale ⟨1, 2, 3, 4, 0, 0, 50, .Hour⟩ 1 1 = .ok r ∧
      r.centiYM = Period.centiYM ⟨1, 2, 3, 4, 0, 0, 50, .Hour⟩ ∧
      r.centiDays = Period.centiDays ⟨1, 2, 3, 4, 0, 0, 50, .Hour⟩ ∧
      r.centiHMS = Period.centiHMS ⟨1, 2, 3, 4, 0, 0, 50, .Hour⟩ :=
  C7_rationalScale_one_identity ⟨1, 2, 3, 4, 0, 0, 50, .Hour⟩
    (by decide) (by decide) (by decide) (by decide)
